import Mathlib

/-!
A shallow embedding of `jsl/fields.py`: the field-node hierarchy, the recursive
schema compiler (`get_definitions_and_schema`) and the traversal protocol
(`walk`).  Schemas and definitions mappings are modelled as ordered association
lists of string keys; Python dict update on provably disjoint keys is modelled
as list concatenation, and the definitions dict (which is passed by reference
through recursive calls) is threaded in-out: every compile function returns the
state of the caller's definitions object alongside the (delta, schema) pair the
Python code returns, so that absence of mutation is a provable statement rather
than a modelling assumption.

The Document collaborator (`document.py`) and the registry are external to
`fields.py`; the registry is abstracted as a lookup function and the document
class is modelled from the spec where indicated.
-/

namespace JSL

/-- JSON values: the shape of compiled schema fragments. -/
inductive JValue where
  | null
  | bool (b : Bool)
  | num (n : Int)
  | str (s : String)
  | arr (elems : List JValue)
  | obj (entries : List (String × JValue))

/-- An ordered string-keyed mapping (a Python dict whose insertion order we fix). -/
abbrev SMap := List (String × JValue)

/-- First-match lookup in a string-keyed mapping. -/
def lookupKey : SMap → String → Option JValue
  | [], _ => none
  | (k1, v) :: rest, k => if k1 = k then some v else lookupKey rest k

/-- Python dict assignment `d[k] = v`: replaces the binding if present, else appends. -/
def setKey : SMap → String → JValue → SMap
  | [], k, v => [(k, v)]
  | (k1, v1) :: rest, k, v =>
    if k1 = k then (k, v) :: rest else (k1, v1) :: setKey rest k v

/-- Python `base.update(extra)`: assign every entry of `extra` into `base` in order. -/
def updateMap (base extra : SMap) : SMap :=
  extra.foldl (fun acc kv => setKey acc kv.1 kv.2) base

/-- Lookup of a schema keyword at the top level of a fragment. -/
def topLookup : JValue → String → Option JValue
  | .obj entries, k => lookupKey entries k
  | _, _ => none

/-- The reserved self-reference token (`RECURSIVE_REFERENCE_CONSTANT = 'self'`). -/
def recursiveReferenceConstant : String := "self"

/-- A reference-pointer schema fragment for a definition id. -/
def refTo (definitionId : String) : JValue :=
  .obj [("$ref", .str ("#/definitions/" ++ definitionId))]

/-- The attributes `BaseField.__init__` stores on every node
(`required`, `default`, `choices`, `title`, `description`).  A callable
`default`/`choices` producer is modelled by the value it produces. -/
structure Common where
  required : Bool
  default : Option JValue
  choices : Option (List JValue)
  title : Option String
  description : Option String

/-- `BaseField._get_common_schema_fields`: emits `title`, `description`,
`enum` (only for a non-empty `choices`: `if self.choices:`) and `default`
(only when `_default is not None`).  The keys are pairwise distinct and fresh,
so the successive dict assignments are concatenations. -/
def _get_common_schema_fields (c : Common) : SMap :=
  (match c.title with | some t => [("title", JValue.str t)] | none => [])
  ++ (match c.description with | some d => [("description", JValue.str d)] | none => [])
  ++ (match c.choices with
      | some l => if l.isEmpty then [] else [("enum", JValue.arr l)]
      | none => [])
  ++ (match c.default with | some d => [("default", d)] | none => [])

/-- The three `OfField` subclasses. -/
inductive OfKind where
  | oneOf
  | anyOf
  | allOf

/-- The `_KEYWORD` class attribute of each `OfField` subclass. -/
def OfKind.keyword : OfKind → String
  | .oneOf => "oneOf"
  | .anyOf => "anyOf"
  | .allOf => "allOf"

/-- `DocumentField._document_cls`: either a direct document class (a handle
into the environment's document table) or a string (the self-reference token
or a registry name). -/
inductive DocRef where
  | cls (handle : Nat)
  | name (s : String)

/-- The field-node hierarchy of `fields.py`, one constructor per concrete
class: the string-format specializations `EmailField`, `IPv4Type`,
`DateTimeField` and `UriField` subclass `StringField` (same stored
attributes, compile adds a `format` keyword); `numberType` mirrors
`_NUMBER_TYPE` (`"number"` for `NumberField`, `"integer"` for `IntField`);
array `items` is either a single field or a list/tuple of fields; the
`additional_items`/`additional_properties` policy is `None`, a boolean, or a
field. -/
inductive Field where
  | stringField (regex : Option String) (minLength maxLength : Option Int) (c : Common)
  | booleanField (c : Common)
  | emailField (regex : Option String) (minLength maxLength : Option Int) (c : Common)
  | ipv4Field (regex : Option String) (minLength maxLength : Option Int) (c : Common)
  | dateTimeField (regex : Option String) (minLength maxLength : Option Int) (c : Common)
  | uriField (regex : Option String) (minLength maxLength : Option Int) (c : Common)
  | numberField (numberType : String) (multipleOf minimum maximum : Option Int)
      (exclusiveMinimum exclusiveMaximum : Bool) (c : Common)
  | arrayField (items : Sum Field (List Field)) (minItems maxItems : Option Int)
      (uniqueItems : Bool) (additionalItems : Option (Sum Bool Field)) (c : Common)
  | dictField (properties : Option (List (String × Field)))
      (patternProperties : Option (List (String × Field)))
      (additionalProperties : Option (Sum Bool Field))
      (minProperties maxProperties : Option Int) (c : Common)
  | documentField (documentCls : DocRef) (ownerCls : Option Nat) (c : Common)
  | ofField (kind : OfKind) (fields : List Field) (c : Common)
  | notField (field : Field) (c : Common)

/-- The Document collaborator's data, as the spec requires it: a stable
definition identifier, a module/namespace used to disambiguate name lookups,
and the document's own field tree (an ordered mapping of field names). -/
structure DocumentCls where
  definitionId : String
  module : String
  fields : List (String × Field)

/-- The environment: the document table (handles are indices), the external
regex validator (`re.compile` succeeding or not) and the external registry
collaborator (`registry.get_document(name, module=...)`, `none` modelling a
raised `KeyError`). -/
structure Env where
  docs : List DocumentCls
  validRegex : String → Bool
  registry : String → Option String → Option Nat

/-- Resolve a document handle in the table. -/
def Env.getDoc (env : Env) (i : Nat) : DocumentCls :=
  env.docs.getD i ⟨"", "", []⟩

/-- Errors raised by `DocumentField.document_cls`. -/
inductive ResolveError where
  | ownerClsNotSet
  | documentNotFound (name : String)

/-- The error outcomes of compilation/traversal: the `ValueError` raised by
`_validate_regex`, an error propagated from reference resolution, or
exhaustion of the recursion bound (an artifact of the embedding, never the
outcome of a genuine run). -/
inductive JslError where
  | invalidRegex (pattern : String)
  | resolution (e : ResolveError)
  | outOfFuel

/-- `DocumentField.document_cls` (evaluated afresh at each compile/traverse):
a non-string is returned as is; the string `'self'` requires `owner_cls` and
resolves to it; any other string is looked up unqualified first, then, on
`KeyError`, qualified by the owner's module (requiring `owner_cls`), a final
`KeyError` propagating. -/
def document_cls (env : Env) (documentCls : DocRef) (ownerCls : Option Nat) :
    Except ResolveError Nat :=
  match documentCls with
  | .cls handle => .ok handle
  | .name s =>
    if s = recursiveReferenceConstant then
      match ownerCls with
      | none => .error .ownerClsNotSet
      | some owner => .ok owner
    else
      match env.registry s none with
      | some doc => .ok doc
      | none =>
        match ownerCls with
        | none => .error .ownerClsNotSet
        | some owner =>
          match env.registry s (some (env.getDoc owner).module) with
          | some doc => .ok doc
          | none => .error (.documentNotFound s)

/-- The resolution procedure exactly as the specification words it (for the
refinement comparison): a direct handle is used as-is; the reserved
self-reference token requires the owner and uses it, failing with a binding
error otherwise; a name is looked up with no namespace qualifier first, then
retried qualified by the owner's namespace (binding error if the owner is
unset), and a final lookup failure is a resolution error. -/
def resolutionPerSpec (env : Env) (ref : DocRef) (owner : Option Nat) :
    Except ResolveError Nat :=
  match ref with
  | .cls handle => .ok handle
  | .name n =>
    if n = "self" then
      match owner with
      | none => .error .ownerClsNotSet
      | some o => .ok o
    else
      match env.registry n none with
      | some doc => .ok doc
      | none =>
        match owner with
        | none => .error .ownerClsNotSet
        | some o =>
          match env.registry n (some (env.getDoc o).module) with
          | some doc => .ok doc
          | none => .error (.documentNotFound n)

/-- `_validate_regex`: raises `ValueError` on a syntactically invalid pattern. -/
def _validate_regex (env : Env) (regex : String) : Except JslError Unit :=
  if env.validRegex regex then .ok () else .error (.invalidRegex regex)

/-- `StringField.__init__`: stores its attributes, validating the regex first
when one is supplied. -/
def mkStringField (env : Env) (regex : Option String) (minLength maxLength : Option Int)
    (c : Common) : Except JslError Field :=
  match regex with
  | some r =>
    match _validate_regex env r with
    | .error e => .error e
    | .ok _ => .ok (.stringField (some r) minLength maxLength c)
  | none => .ok (.stringField none minLength maxLength c)

/-- `DictField.__init__`: stores its attributes verbatim; it performs no
validation of pattern-property keys. -/
def mkDictField (properties patternProperties : Option (List (String × Field)))
    (additionalProperties : Option (Sum Bool Field))
    (minProperties maxProperties : Option Int) (c : Common) : Field :=
  .dictField properties patternProperties additionalProperties minProperties maxProperties c

/-- The key-validation loop of `DictField.get_definitions_and_schema`
(`for key in self.pattern_properties.iterkeys(): _validate_regex(key)`). -/
def validatePatternKeys (env : Env) : List (String × Field) → Except JslError Unit
  | [] => .ok ()
  | (key, _) :: rest =>
    if env.validRegex key then validatePatternKeys env rest
    else .error (.invalidRegex key)

/-- The schema assembled by `StringField.get_definitions_and_schema`:
`type`, the common fields, then `pattern` (`if self.regex:`, so an empty
pattern is omitted), `minLength`, `maxLength`. -/
def stringSchemaFields (regex : Option String) (minLength maxLength : Option Int)
    (c : Common) : SMap :=
  [("type", JValue.str "string")] ++ _get_common_schema_fields c
  ++ (match regex with
      | some r => if r = "" then [] else [("pattern", JValue.str r)]
      | none => [])
  ++ (match minLength with | some n => [("minLength", JValue.num n)] | none => [])
  ++ (match maxLength with | some n => [("maxLength", JValue.num n)] | none => [])

/-- The schema assembled by `NumberField.get_definitions_and_schema`.  The
exclusive-minimum keyword is emitted under the spelling found in the source
(`'exclusiveMinumum'`, line 154 of `fields.py`). -/
def numberSchemaFields (numberType : String) (multipleOf minimum maximum : Option Int)
    (exclusiveMinimum exclusiveMaximum : Bool) (c : Common) : SMap :=
  [("type", JValue.str numberType)] ++ _get_common_schema_fields c
  ++ (match multipleOf with | some n => [("multipleOf", JValue.num n)] | none => [])
  ++ (match minimum with | some n => [("minimum", JValue.num n)] | none => [])
  ++ (if exclusiveMinimum then [("exclusiveMinumum", JValue.bool true)] else [])
  ++ (match maximum with | some n => [("maximum", JValue.num n)] | none => [])
  ++ (if exclusiveMaximum then [("exclusiveMaximum", JValue.bool true)] else [])

/-- The schema assembled by `ArrayField.get_definitions_and_schema` around the
compiled item schema(s) and (optional) additional-items value. -/
def arraySchemaFields (itemsSchema : JValue) (minItems maxItems : Option Int)
    (uniqueItems : Bool) (c : Common) (additional : Option JValue) : SMap :=
  [("type", JValue.str "array"), ("items", itemsSchema)] ++ _get_common_schema_fields c
  ++ (match minItems with | some n => [("minItems", JValue.num n)] | none => [])
  ++ (match maxItems with | some n => [("maxItems", JValue.num n)] | none => [])
  ++ (if uniqueItems then [("uniqueItems", JValue.bool true)] else [])
  ++ (match additional with | some v => [("additionalItems", v)] | none => [])

/-- The schema assembled by `DictField.get_definitions_and_schema` around the
compiled property schemas and (optional) additional-properties value. -/
def dictSchemaFields (propertiesSchema patternSchema : Option (List (String × JValue)))
    (additional : Option JValue) (minProperties maxProperties : Option Int)
    (c : Common) : SMap :=
  [("type", JValue.str "object")] ++ _get_common_schema_fields c
  ++ (match propertiesSchema with | some ps => [("properties", JValue.obj ps)] | none => [])
  ++ (match patternSchema with | some ps => [("patternProperties", JValue.obj ps)] | none => [])
  ++ (match additional with | some v => [("additionalProperties", v)] | none => [])
  ++ (match minProperties with | some n => [("minProperties", JValue.num n)] | none => [])
  ++ (match maxProperties with | some n => [("maxProperties", JValue.num n)] | none => [])

mutual

/-- `get_definitions_and_schema(self, definitions)` of each field class.  The
result triple is (state of the caller's `definitions` object after the call,
newly discovered definitions, schema fragment); the Python method returns only
the last two, the first models the by-reference `definitions` argument.
`fuel` bounds document-graph descent only. -/
def get_definitions_and_schema (env : Env) (fuel : Nat) (f : Field) (defs : SMap) :
    Except JslError (SMap × SMap × JValue) :=
  match f with
  | .stringField regex minLength maxLength c =>
    .ok (defs, [], .obj (stringSchemaFields regex minLength maxLength c))
  | .booleanField c =>
    .ok (defs, [], .obj ([("type", JValue.str "boolean")] ++ _get_common_schema_fields c))
  | .emailField regex minLength maxLength c =>
    -- `EmailField`: the StringField schema, then `schema['format'] = 'email'`,
    -- returning the (empty) definitions of the superclass call.
    .ok (defs, [], .obj (stringSchemaFields regex minLength maxLength c
      ++ [("format", JValue.str "email")]))
  | .ipv4Field regex minLength maxLength c =>
    .ok (defs, [], .obj (stringSchemaFields regex minLength maxLength c
      ++ [("format", JValue.str "ipv4")]))
  | .dateTimeField regex minLength maxLength c =>
    .ok (defs, [], .obj (stringSchemaFields regex minLength maxLength c
      ++ [("format", JValue.str "date-time")]))
  | .uriField regex minLength maxLength c =>
    .ok (defs, [], .obj (stringSchemaFields regex minLength maxLength c
      ++ [("format", JValue.str "uri")]))
  | .numberField numberType multipleOf minimum maximum exclMin exclMax c =>
    .ok (defs, [],
      .obj (numberSchemaFields numberType multipleOf minimum maximum exclMin exclMax c))
  | .arrayField items minItems maxItems uniqueItems additionalItems c => do
    let (d1, nestedDefinitions, itemsSchema) ← compileItems env fuel items defs
    let (d2, addDefinitions, addSchema) ← compileAdditional env fuel additionalItems d1
    .ok (d2, updateMap nestedDefinitions addDefinitions,
      .obj (arraySchemaFields itemsSchema minItems maxItems uniqueItems c addSchema))
  | .dictField properties patternProperties additionalProperties minProps maxProps c => do
    let (d1, propertiesDefinitions, propertiesSchema) ←
      compileOptionalProps env fuel properties defs
    match patternProperties with
    | none => do
      let (d3, addDefinitions, addSchema) ←
        compileAdditional env fuel additionalProperties d1
      .ok (d3, updateMap propertiesDefinitions addDefinitions,
        .obj (dictSchemaFields propertiesSchema none addSchema minProps maxProps c))
    | some patterns => do
      let _u ← validatePatternKeys env patterns
      let (d2, patternDefinitions, patternSchema) ← _process_properties env fuel patterns d1
      let (d3, addDefinitions, addSchema) ←
        compileAdditional env fuel additionalProperties d2
      .ok (d3, updateMap (updateMap propertiesDefinitions patternDefinitions) addDefinitions,
        .obj (dictSchemaFields propertiesSchema (some patternSchema) addSchema
          minProps maxProps c))
  | .documentField docRef ownerCls _c =>
    match document_cls env docRef ownerCls with
    | .error e => .error (.resolution e)
    | .ok docIdx =>
      -- `if definitions and definition_id in definitions: return {}, definitions[definition_id]`
      if defs.isEmpty then compileDocument env fuel docIdx defs
      else
        match lookupKey defs (env.getDoc docIdx).definitionId with
        | some s => .ok (defs, [], s)
        | none => compileDocument env fuel docIdx defs
  | .ofField kind fields c => do
    let (d1, nestedDefinitions, schemas) ← compileFieldList env fuel fields defs
    .ok (d1, nestedDefinitions,
      .obj ([(kind.keyword, JValue.arr schemas)] ++ _get_common_schema_fields c))
  | .notField field c => do
    let (d1, fieldDefinitions, fieldSchema) ← get_definitions_and_schema env fuel field defs
    .ok (d1, fieldDefinitions,
      .obj ([("not", fieldSchema)] ++ _get_common_schema_fields c))
termination_by (fuel, sizeOf f)

/-- The two item layouts of `ArrayField`: a list/tuple of per-position fields
or one field for every element. -/
def compileItems (env : Env) (fuel : Nat) (items : Sum Field (List Field)) (defs : SMap) :
    Except JslError (SMap × SMap × JValue) :=
  match items with
  | .inr fs => do
    let (d1, nestedDefinitions, schemas) ← compileFieldList env fuel fs defs
    .ok (d1, nestedDefinitions, .arr schemas)
  | .inl f1 => get_definitions_and_schema env fuel f1 defs
termination_by (fuel, sizeOf items)

/-- Compile a list of fields in order against the same (aliased) definitions
object, merging their deltas (`nested_definitions.update(item_definitions)`). -/
def compileFieldList (env : Env) (fuel : Nat) (fs : List Field) (defs : SMap) :
    Except JslError (SMap × SMap × List JValue) :=
  match fs with
  | [] => .ok (defs, [], [])
  | f :: rest => do
    let (d1, itemDefinitions, itemSchema) ← get_definitions_and_schema env fuel f defs
    let (d2, restDefinitions, restSchemas) ← compileFieldList env fuel rest d1
    .ok (d2, updateMap itemDefinitions restDefinitions, itemSchema :: restSchemas)
termination_by (fuel, sizeOf fs)

/-- `DictField._process_properties`: compile each named property in order,
merging deltas and recording each property's schema under its name. -/
def _process_properties (env : Env) (fuel : Nat) (l : List (String × Field)) (defs : SMap) :
    Except JslError (SMap × SMap × List (String × JValue)) :=
  match l with
  | [] => .ok (defs, [], [])
  | (prop, f) :: rest => do
    let (d1, fieldDefinitions, fieldSchema) ← get_definitions_and_schema env fuel f defs
    let (d2, restDefinitions, restSchema) ← _process_properties env fuel rest d1
    .ok (d2, updateMap fieldDefinitions restDefinitions, (prop, fieldSchema) :: restSchema)
termination_by (fuel, sizeOf l)

/-- An optional properties mapping (`if self.properties is not None: ...`). -/
def compileOptionalProps (env : Env) (fuel : Nat) (o : Option (List (String × Field)))
    (defs : SMap) : Except JslError (SMap × SMap × Option (List (String × JValue))) :=
  match o with
  | none => .ok (defs, [], none)
  | some l => do
    let (d1, propDefinitions, propSchema) ← _process_properties env fuel l defs
    .ok (d1, propDefinitions, some propSchema)
termination_by (fuel, sizeOf o)

/-- The additional-items/additional-properties policy: absent, a boolean
emitted verbatim, or a field compiled into a schema. -/
def compileAdditional (env : Env) (fuel : Nat) (o : Option (Sum Bool Field)) (defs : SMap) :
    Except JslError (SMap × SMap × Option JValue) :=
  match o with
  | none => .ok (defs, [], none)
  | some (.inl b) => .ok (defs, [], some (.bool b))
  | some (.inr f) => do
    let (d1, itemsDefinitions, itemsSchema) ← get_definitions_and_schema env fuel f defs
    .ok (d1, itemsDefinitions, some itemsSchema)
termination_by (fuel, sizeOf o)

/-- Modelled from the spec: `Document.get_definitions_and_schema`
(`document.py` is not part of the embedded source).  Per the spec, the
document registers its own definition id as an in-flight reference pointer
before compiling its field tree (the mechanism that terminates cyclic document
graphs), must not mutate the caller's accumulated definitions (so it works on
an extended copy), registers its full compiled schema under its id in the
returned delta, and yields a pure reference pointer as its schema fragment so
that the full schema is emitted once, in the definitions. -/
def compileDocument (env : Env) (fuel : Nat) (docIdx : Nat) (defs : SMap) :
    Except JslError (SMap × SMap × JValue) :=
  match fuel with
  | 0 => .error .outOfFuel
  | fuel1 + 1 => do
    let doc := env.getDoc docIdx
    let inflight := setKey defs doc.definitionId (refTo doc.definitionId)
    let (_, nestedDefinitions, propertiesSchema) ←
      _process_properties env fuel1 doc.fields inflight
    let documentSchema := JValue.obj
      [("type", JValue.str "object"), ("properties", JValue.obj propertiesSchema)]
    .ok (defs, setKey nestedDefinitions doc.definitionId documentSchema,
      refTo doc.definitionId)
termination_by (fuel, 0)

end

mutual

/-- `walk(self, through_document_fields, visited_documents)` of each field
class.  `BaseField.walk` yields only the node itself; `NotField` declares no
`walk` of its own, so it inherits that behaviour.  `ArrayField.walk` descends
into `items` only; `DictField.walk` chains declared properties, pattern
properties and a non-boolean additional-properties schema. -/
def walk (env : Env) (fuel : Nat) (f : Field) (throughDocumentFields : Bool)
    (visitedDocuments : List Nat) : Except JslError (List Field) :=
  match f with
  | .stringField _ _ _ _ => .ok [f]
  | .booleanField _ => .ok [f]
  | .emailField _ _ _ _ => .ok [f]
  | .ipv4Field _ _ _ _ => .ok [f]
  | .dateTimeField _ _ _ _ => .ok [f]
  | .uriField _ _ _ _ => .ok [f]
  | .numberField _ _ _ _ _ _ _ => .ok [f]
  | .arrayField items _ _ _ _ _ => do
    let rest ← walkItems env fuel items throughDocumentFields visitedDocuments
    .ok (f :: rest)
  | .dictField properties patternProperties additionalProperties _ _ _ => do
    let l1 ← walkOptionalValues env fuel properties throughDocumentFields
      visitedDocuments
    let l2 ← walkOptionalValues env fuel patternProperties throughDocumentFields
      visitedDocuments
    let l3 ← walkAdditional env fuel additionalProperties throughDocumentFields
      visitedDocuments
    .ok (f :: (l1 ++ l2 ++ l3))
  | .documentField docRef ownerCls _ =>
    if throughDocumentFields then
      match document_cls env docRef ownerCls with
      | .error e => .error (.resolution e)
      | .ok docIdx =>
        if visitedDocuments.contains docIdx then .ok [f]
        else do
          let rest ← walkDocument env fuel docIdx throughDocumentFields
            (visitedDocuments ++ [docIdx])
          .ok (f :: rest)
    else .ok [f]
  | .ofField _ fields _ => do
    let rest ← walkList env fuel fields throughDocumentFields visitedDocuments
    .ok (f :: rest)
  | .notField _ _ => .ok [f]
termination_by (fuel, sizeOf f)

/-- Walk the item schema(s) of an array field in position order. -/
def walkItems (env : Env) (fuel : Nat) (items : Sum Field (List Field))
    (throughDocumentFields : Bool) (visitedDocuments : List Nat) :
    Except JslError (List Field) :=
  match items with
  | .inr fs => walkList env fuel fs throughDocumentFields visitedDocuments
  | .inl f1 => walk env fuel f1 throughDocumentFields visitedDocuments
termination_by (fuel, sizeOf items)

/-- Chain the walks of a list of fields in order. -/
def walkList (env : Env) (fuel : Nat) (fs : List Field) (throughDocumentFields : Bool)
    (visitedDocuments : List Nat) : Except JslError (List Field) :=
  match fs with
  | [] => .ok []
  | f :: rest => do
    let l1 ← walk env fuel f throughDocumentFields visitedDocuments
    let l2 ← walkList env fuel rest throughDocumentFields visitedDocuments
    .ok (l1 ++ l2)
termination_by (fuel, sizeOf fs)

/-- Chain the walks of the values of a properties mapping in order. -/
def walkFieldValues (env : Env) (fuel : Nat) (l : List (String × Field))
    (throughDocumentFields : Bool) (visitedDocuments : List Nat) :
    Except JslError (List Field) :=
  match l with
  | [] => .ok []
  | (_, f) :: rest => do
    let l1 ← walk env fuel f throughDocumentFields visitedDocuments
    let l2 ← walkFieldValues env fuel rest throughDocumentFields visitedDocuments
    .ok (l1 ++ l2)
termination_by (fuel, sizeOf l)

/-- A properties mapping contributes its values to `fields_to_visit` only when
it `is not None`. -/
def walkOptionalValues (env : Env) (fuel : Nat) (o : Option (List (String × Field)))
    (throughDocumentFields : Bool) (visitedDocuments : List Nat) :
    Except JslError (List Field) :=
  match o with
  | none => .ok []
  | some l => walkFieldValues env fuel l throughDocumentFields visitedDocuments
termination_by (fuel, sizeOf o)

/-- The additional-properties schema is visited only when it is a field
(`... and not isinstance(self.additional_properties, bool)`). -/
def walkAdditional (env : Env) (fuel : Nat) (o : Option (Sum Bool Field))
    (throughDocumentFields : Bool) (visitedDocuments : List Nat) :
    Except JslError (List Field) :=
  match o with
  | none => .ok []
  | some (.inl _) => .ok []
  | some (.inr f) => walk env fuel f throughDocumentFields visitedDocuments
termination_by (fuel, sizeOf o)

/-- Modelled from the spec: `Document.walk` (`document.py` is not part of the
embedded source) descends into the referenced document's own field tree,
chaining the walks of its fields in declared order. -/
def walkDocument (env : Env) (fuel : Nat) (docIdx : Nat) (throughDocumentFields : Bool)
    (visitedDocuments : List Nat) : Except JslError (List Field) :=
  match fuel with
  | 0 => .error .outOfFuel
  | fuel1 + 1 =>
    walkFieldValues env fuel1 (env.getDoc docIdx).fields throughDocumentFields
      visitedDocuments
termination_by (fuel, 0)

end

/-- The state of an accumulated definitions mapping as seen by a reference
while documents are being compiled: every registered entry is the in-flight
reference pointer for its definition id. -/
def PointerInvariant (defs : SMap) : Prop :=
  ∀ k v, lookupKey defs k = some v → v = refTo k

/-- A sample environment with no documents, an always-succeeding regex
validator and an empty registry. -/
def env0 : Env := ⟨[], fun _ => true, fun _ _ => none⟩

/-- A node with none of the optional base attributes set
(`required=False, default=None, choices=None, title=None, description=None`). -/
def common0 : Common := ⟨false, none, none, none, none⟩

/-- An environment whose regex validator rejects exactly the pattern `"["`
(the canonical syntactically invalid regular expression). -/
def envBracket : Env := ⟨[], fun s => s != "[", fun _ _ => none⟩

/-- An environment with a single self-referential document `D`: its one field
references the owning document through the reserved token. -/
def envDoc : Env :=
  ⟨[⟨"D", "m", [("x", .documentField (.name "self") (some 0) common0)]⟩],
   fun _ => true, fun _ _ => none⟩

/-- A two-property object node whose first property is itself an object with
one property: a counterexample shape for traversal node counts. -/
def innerDictSample : Field :=
  .dictField (some [("b", .booleanField common0)]) none none none none common0

def outerDictSample : Field :=
  .dictField (some [("a", innerDictSample), ("c", .booleanField common0)])
    none none none none common0

@[simp] theorem lookupKey_nil (k : String) : lookupKey [] k = none := rfl

theorem lookupKey_append_none {l1 : SMap} (l2 : SMap) {k : String}
    (h : lookupKey l1 k = none) : lookupKey (l1 ++ l2) k = lookupKey l2 k := by
  induction l1 with
  | nil => rfl
  | cons kv rest ih =>
    obtain ⟨k1, v1⟩ := kv
    simp only [lookupKey, List.cons_append] at h ⊢
    split at h
    · simp at h
    next hne =>
      rw [if_neg hne]
      exact ih h

theorem lookupKey_append_some {l1 : SMap} (l2 : SMap) {k : String} {v : JValue}
    (h : lookupKey l1 k = some v) : lookupKey (l1 ++ l2) k = some v := by
  induction l1 with
  | nil => simp [lookupKey] at h
  | cons kv rest ih =>
    obtain ⟨k1, v1⟩ := kv
    simp only [lookupKey, List.cons_append] at h ⊢
    split at h
    next heq =>
      rw [if_pos heq]
      exact h
    next hne =>
      rw [if_neg hne]
      exact ih h

theorem isEmpty_false_of_lookup {defs : SMap} {k : String} {v : JValue}
    (h : lookupKey defs k = some v) : defs.isEmpty = false := by
  cases defs with
  | nil => simp [lookupKey] at h
  | cons kv rest => rfl

theorem common_fields_no_key (c : Common) (k : String)
    (h1 : k ≠ "title") (h2 : k ≠ "description") (h3 : k ≠ "enum") (h4 : k ≠ "default") :
    lookupKey (_get_common_schema_fields c) k = none := by
  have g1 : "title" ≠ k := fun h => h1 h.symm
  have g2 : "description" ≠ k := fun h => h2 h.symm
  have g3 : "enum" ≠ k := fun h => h3 h.symm
  have g4 : "default" ≠ k := fun h => h4 h.symm
  obtain ⟨req, df, ch, ti, de⟩ := c
  unfold _get_common_schema_fields
  cases ti <;> cases de <;> rcases ch with _ | (_ | ⟨x, xs⟩) <;> cases df <;>
    simp_all [lookupKey]

theorem validatePatternKeys_invalid {env : Env} {l : List (String × Field)} {key : String}
    (h : validatePatternKeys env l = .error (.invalidRegex key)) :
    env.validRegex key = false := by
  induction l with
  | nil => simp [validatePatternKeys] at h
  | cons kv rest ih =>
    obtain ⟨k1, f1⟩ := kv
    simp only [validatePatternKeys] at h
    split at h
    · exact ih h
    · simp only [Except.error.injEq, JslError.invalidRegex.injEq] at h
      subst h
      simp_all

theorem pointerInvariant_nil : PointerInvariant [] := by
  intro k v h
  simp [lookupKey] at h

theorem pointerInvariant_single (definitionId : String) :
    PointerInvariant [(definitionId, refTo definitionId)] := by
  intro k v h
  simp only [lookupKey] at h
  split at h
  next heq =>
    simp only [Option.some.injEq] at h
    rw [← h, heq]
  next => simp at h

/-- C2: for every document-reference field, the resolution evaluated at each
compile or traverse (`DocumentField.document_cls`) follows exactly the
specified procedure: a direct document handle is used as-is; the reserved
self-reference token requires the owner back-reference and uses it, failing
with a binding error otherwise; a name is looked up without a namespace
qualifier first, then retried qualified by the owner's namespace (binding
error when the owner is unset), and a final lookup failure is surfaced as a
resolution error. -/
theorem C2_resolution_cascade :
    ∀ (env : Env) (ref : DocRef) (owner : Option Nat),
      document_cls env ref owner = resolutionPerSpec env ref owner := by
  intro env ref owner
  rfl

/-- C7: a string field constructed with pattern `"^[a-z]+$"`, minimum length 1
and no other attributes compiles (under any accumulated definitions and any
fuel) to an empty definitions delta and exactly the fragment
`{type: "string", pattern: "^[a-z]+$", minLength: 1}`, with no other keys. -/
theorem C7_string_exact_fragment (env : Env) (fuel : Nat) (defs : SMap)
    (hv : env.validRegex "^[a-z]+$" = true) :
    mkStringField env (some "^[a-z]+$") (some 1) none common0
      = .ok (.stringField (some "^[a-z]+$") (some 1) none common0)
    ∧ get_definitions_and_schema env fuel
        (.stringField (some "^[a-z]+$") (some 1) none common0) defs
      = .ok (defs, [], .obj
          [("type", .str "string"), ("pattern", .str "^[a-z]+$"),
           ("minLength", .num 1)]) := by
  constructor
  · simp [mkStringField, _validate_regex, hv]
  · simp only [get_definitions_and_schema]
    rfl

theorem C7_witness :
    env0.validRegex "^[a-z]+$" = true
    ∧ (mkStringField env0 (some "^[a-z]+$") (some 1) none common0
        = .ok (.stringField (some "^[a-z]+$") (some 1) none common0)
      ∧ get_definitions_and_schema env0 0
          (.stringField (some "^[a-z]+$") (some 1) none common0) []
        = .ok ([], [], .obj
            [("type", .str "string"), ("pattern", .str "^[a-z]+$"),
             ("minLength", .num 1)])) :=
  ⟨rfl, C7_string_exact_fragment env0 0 [] rfl⟩

theorem arraySchemaFields_items_lookup (s : JValue) (mi ma : Option Int) (u : Bool)
    (c : Common) (add : Option JValue) :
    lookupKey (arraySchemaFields s mi ma u c add) "items" = some s := by
  unfold arraySchemaFields
  simp only [List.append_assoc]
  exact lookupKey_append_some _ rfl

theorem arraySchemaFields_additional_lookup (s : JValue) (mi ma : Option Int) (u : Bool)
    (c : Common) (add : JValue) :
    lookupKey (arraySchemaFields s mi ma u c (some add)) "additionalItems" = some add := by
  have hA : lookupKey [("type", JValue.str "array"), ("items", s)] "additionalItems"
      = none := rfl
  have hB := common_fields_no_key c "additionalItems"
    (by decide) (by decide) (by decide) (by decide)
  cases mi <;> cases ma <;> cases u <;>
    (unfold arraySchemaFields
     simp only [List.append_assoc]
     rw [lookupKey_append_none _ hA, lookupKey_append_none _ hB]
     rfl)

/-- C6: for an array field whose items are an ordered pair of two distinct
field schemas and whose additional-items policy is the boolean `false`, the
compiled fragment's `items` value is the ordered sequence of the two compiled
child fragments in declaration order, and its `additionalItems` value is the
boolean `false` verbatim, not a compiled schema. -/
theorem C6_array_pair_additional_false (env : Env) (fuel : Nat) (f1 f2 : Field)
    (minItems maxItems : Option Int) (uniqueItems : Bool) (c : Common)
    (defs d1 d2 δ1 δ2 : SMap) (s1 s2 : JValue)
    (_hne : f1 ≠ f2)
    (h1 : get_definitions_and_schema env fuel f1 defs = .ok (d1, δ1, s1))
    (h2 : get_definitions_and_schema env fuel f2 d1 = .ok (d2, δ2, s2)) :
    get_definitions_and_schema env fuel
        (.arrayField (.inr [f1, f2]) minItems maxItems uniqueItems
          (some (.inl false)) c) defs
      = .ok (d2, updateMap δ1 δ2,
          .obj (arraySchemaFields (.arr [s1, s2]) minItems maxItems uniqueItems c
            (some (.bool false))))
    ∧ lookupKey (arraySchemaFields (.arr [s1, s2]) minItems maxItems uniqueItems c
          (some (.bool false))) "items" = some (.arr [s1, s2])
    ∧ lookupKey (arraySchemaFields (.arr [s1, s2]) minItems maxItems uniqueItems c
          (some (.bool false))) "additionalItems" = some (.bool false) := by
  refine ⟨?_, arraySchemaFields_items_lookup _ _ _ _ _ _,
    arraySchemaFields_additional_lookup _ _ _ _ _ _⟩
  simp only [get_definitions_and_schema, compileItems, compileFieldList, compileAdditional,
    h1, h2, bind, Except.bind, updateMap, List.foldl]

theorem C6_witness :
    (Field.booleanField common0 ≠ Field.stringField none none none common0)
    ∧ (get_definitions_and_schema env0 0
        (.arrayField
          (.inr [Field.booleanField common0, Field.stringField none none none common0])
          none none false (some (.inl false)) common0) []
      = .ok ([], updateMap [] [],
          .obj (arraySchemaFields
            (.arr [.obj [("type", JValue.str "boolean")],
                   .obj [("type", JValue.str "string")]])
            none none false common0 (some (.bool false))))
      ∧ lookupKey (arraySchemaFields
            (.arr [.obj [("type", JValue.str "boolean")],
                   .obj [("type", JValue.str "string")]])
            none none false common0 (some (.bool false))) "items"
          = some (.arr [.obj [("type", JValue.str "boolean")],
                        .obj [("type", JValue.str "string")]])
      ∧ lookupKey (arraySchemaFields
            (.arr [.obj [("type", JValue.str "boolean")],
                   .obj [("type", JValue.str "string")]])
            none none false common0 (some (.bool false))) "additionalItems"
          = some (.bool false)) :=
  ⟨fun h => Field.noConfusion h,
   C6_array_pair_additional_false env0 0 _ _ none none false common0 [] [] [] [] []
     (.obj [("type", JValue.str "boolean")]) (.obj [("type", JValue.str "string")])
     (fun h => Field.noConfusion h)
     (by simp only [get_definitions_and_schema]; rfl)
     (by simp only [get_definitions_and_schema]; rfl)⟩

/-- C9 (code bug): with the exclusive-minimum flag set, the compiled fragment
carries the misspelled keyword `exclusiveMinumum` (`fields.py` line 154) and
not the standard JSON Schema keyword `exclusiveMinimum`; the
exclusive-maximum flag, by contrast, is emitted under the standard
`exclusiveMaximum` keyword. -/
theorem C9_exclusive_minimum_misspelt :
    get_definitions_and_schema env0 0
      (.numberField "number" none none none true false common0) []
      = .ok ([], [], .obj [("type", .str "number"), ("exclusiveMinumum", .bool true)])
    ∧ topLookup (.obj [("type", .str "number"), ("exclusiveMinumum", .bool true)])
        "exclusiveMinimum" = none
    ∧ get_definitions_and_schema env0 0
        (.numberField "number" none none none false true common0) []
      = .ok ([], [], .obj [("type", .str "number"), ("exclusiveMaximum", .bool true)]) :=
  ⟨by simp only [get_definitions_and_schema]; rfl, rfl,
   by simp only [get_definitions_and_schema]; rfl⟩

theorem compile_frame_all (env : Env) :
    ∀ (fuel : Nat) (f : Field) (defs : SMap),
      ∀ r, get_definitions_and_schema env fuel f defs = .ok r → r.1 = defs := by
  intro fuel f defs
  refine get_definitions_and_schema.induct env
    (fun fuel f defs => ∀ r, get_definitions_and_schema env fuel f defs = .ok r → r.1 = defs)
    (fun fuel fs defs => ∀ r, compileFieldList env fuel fs defs = .ok r → r.1 = defs)
    (fun fuel docIdx defs => ∀ r, compileDocument env fuel docIdx defs = .ok r → r.1 = defs)
    (fun fuel l defs => ∀ r, _process_properties env fuel l defs = .ok r → r.1 = defs)
    (fun fuel o defs => ∀ r, compileOptionalProps env fuel o defs = .ok r → r.1 = defs)
    (fun fuel o defs => ∀ r, compileAdditional env fuel o defs = .ok r → r.1 = defs)
    (fun fuel items defs => ∀ r, compileItems env fuel items defs = .ok r → r.1 = defs)
    ?_ ?_ ?_ ?_ ?_ ?_ ?_ ?_ ?_ ?_ ?_ ?_ ?_ ?_ ?_ ?_ ?_ ?_ ?_ ?_ ?_ ?_ ?_ ?_ ?_ ?_ ?_ ?_ fuel f defs
  · intro fuel defs regex mi ma c r h
    simp only [get_definitions_and_schema] at h
    cases h
    rfl
  · intro fuel defs c r h
    simp only [get_definitions_and_schema] at h
    cases h
    rfl
  · intro fuel defs regex mi ma c r h
    simp only [get_definitions_and_schema] at h
    cases h
    rfl
  · intro fuel defs regex mi ma c r h
    simp only [get_definitions_and_schema] at h
    cases h
    rfl
  · intro fuel defs regex mi ma c r h
    simp only [get_definitions_and_schema] at h
    cases h
    rfl
  · intro fuel defs regex mi ma c r h
    simp only [get_definitions_and_schema] at h
    cases h
    rfl
  · intro fuel defs nt mo mi ma emi ema c r h
    simp only [get_definitions_and_schema] at h
    cases h
    rfl
  · intro fuel defs items mi ma u add c ih1 ih2 r h
    simp only [get_definitions_and_schema, bind, Except.bind] at h
    cases hi : compileItems env fuel items defs with
    | error e => simp only [hi] at h; exact absurd h (by simp)
    | ok a =>
      obtain ⟨d1, δ1, s1⟩ := a
      simp only [hi] at h
      cases ha : compileAdditional env fuel add d1 with
      | error e => simp only [ha] at h; exact absurd h (by simp)
      | ok b =>
        obtain ⟨d2, δ2, s2⟩ := b
        simp only [ha] at h
        cases h
        exact (ih2 d1 _ ha).trans (ih1 _ hi)
  · intro fuel defs props patProps addProps minP maxP c ih1 ih2 r h
    simp only [get_definitions_and_schema, bind, Except.bind] at h
    cases hp : compileOptionalProps env fuel props defs with
    | error e => simp only [hp] at h; exact absurd h (by simp)
    | ok a =>
      obtain ⟨d1, δ1, ps1⟩ := a
      simp only [hp] at h
      cases patProps with
      | none =>
        simp only at h
        cases ha : compileAdditional env fuel addProps d1 with
        | error e => simp only [ha] at h; exact absurd h (by simp)
        | ok b =>
          obtain ⟨d3, δ3, s3⟩ := b
          simp only [ha] at h
          cases h
          exact ((ih2 d1) _ ha).trans (ih1 _ hp)
      | some patterns =>
        simp only at h
        cases hv : validatePatternKeys env patterns with
        | error e => simp only [hv] at h; exact absurd h (by simp)
        | ok u =>
          simp only [hv] at h
          cases hq : _process_properties env fuel patterns d1 with
          | error e => simp only [hq] at h; exact absurd h (by simp)
          | ok b =>
            obtain ⟨d2, δ2, ps2⟩ := b
            simp only [hq] at h
            cases ha : compileAdditional env fuel addProps d2 with
            | error e => simp only [ha] at h; exact absurd h (by simp)
            | ok b2 =>
              obtain ⟨d3, δ3, s3⟩ := b2
              simp only [ha] at h
              cases h
              exact ((ih2 d1).2 d2 _ ha).trans (((ih2 d1).1 _ hq).trans (ih1 _ hp))
  · intro fuel defs docRef ownerCls c e hres r h
    simp only [get_definitions_and_schema, hres] at h
    exact absurd h (by simp)
  · intro fuel defs docRef ownerCls c docIdx hres hemp ih r h
    simp only [get_definitions_and_schema, hres, hemp, if_true] at h
    exact ih _ h
  · intro fuel defs docRef ownerCls c docIdx hres hemp d hd r h
    simp only [get_definitions_and_schema, hres] at h
    rw [if_neg (by simpa using hemp)] at h
    simp only [hd] at h
    cases h
    rfl
  · intro fuel defs docRef ownerCls c docIdx hres hemp hd ih r h
    simp only [get_definitions_and_schema, hres] at h
    rw [if_neg (by simpa using hemp)] at h
    simp only [hd] at h
    exact ih _ h
  · intro fuel defs kind fields c ih r h
    simp only [get_definitions_and_schema, bind, Except.bind] at h
    cases hl : compileFieldList env fuel fields defs with
    | error e => simp only [hl] at h; exact absurd h (by simp)
    | ok a =>
      obtain ⟨d1, δ1, ss⟩ := a
      simp only [hl] at h
      cases h
      exact ih (d1, δ1, ss) hl
  · intro fuel defs field c ih r h
    simp only [get_definitions_and_schema, bind, Except.bind] at h
    cases hf : get_definitions_and_schema env fuel field defs with
    | error e => simp only [hf] at h; exact absurd h (by simp)
    | ok a =>
      obtain ⟨d1, δ1, s1⟩ := a
      simp only [hf] at h
      cases h
      exact ih (d1, δ1, s1) hf
  · intro fuel defs r h
    simp only [compileFieldList] at h
    cases h
    rfl
  · intro fuel defs f rest ih1 ih2 r h
    simp only [compileFieldList, bind, Except.bind] at h
    cases hf : get_definitions_and_schema env fuel f defs with
    | error e => simp only [hf] at h; exact absurd h (by simp)
    | ok a =>
      obtain ⟨d1, δ1, s1⟩ := a
      simp only [hf] at h
      cases hr : compileFieldList env fuel rest d1 with
      | error e => simp only [hr] at h; exact absurd h (by simp)
      | ok b =>
        obtain ⟨d2, δ2, ss⟩ := b
        simp only [hr] at h
        cases h
        exact (ih2 d1 _ hr).trans (ih1 _ hf)
  · intro docIdx defs r h
    simp only [compileDocument] at h
    exact absurd h (by simp)
  · intro docIdx defs fuel1 doc inflight ih r h
    simp only [compileDocument, bind, Except.bind] at h
    cases hq : _process_properties env fuel1 (env.getDoc docIdx).fields
        (setKey defs (env.getDoc docIdx).definitionId
          (refTo (env.getDoc docIdx).definitionId)) with
    | error e => simp only [hq] at h; exact absurd h (by simp)
    | ok a =>
      obtain ⟨d1, δ1, ps⟩ := a
      simp only [hq] at h
      cases h
      rfl
  · intro fuel defs r h
    simp only [_process_properties] at h
    cases h
    rfl
  · intro fuel defs key f rest ih1 ih2 r h
    simp only [_process_properties, bind, Except.bind] at h
    cases hf : get_definitions_and_schema env fuel f defs with
    | error e => simp only [hf] at h; exact absurd h (by simp)
    | ok a =>
      obtain ⟨d1, δ1, s1⟩ := a
      simp only [hf] at h
      cases hr : _process_properties env fuel rest d1 with
      | error e => simp only [hr] at h; exact absurd h (by simp)
      | ok b =>
        obtain ⟨d2, δ2, ss⟩ := b
        simp only [hr] at h
        cases h
        exact (ih2 d1 _ hr).trans (ih1 _ hf)
  · intro fuel defs r h
    simp only [compileOptionalProps] at h
    cases h
    rfl
  · intro fuel defs l ih r h
    simp only [compileOptionalProps, bind, Except.bind] at h
    cases hq : _process_properties env fuel l defs with
    | error e => simp only [hq] at h; exact absurd h (by simp)
    | ok a =>
      obtain ⟨d1, δ1, ps⟩ := a
      simp only [hq] at h
      cases h
      exact ih (d1, δ1, ps) hq
  · intro fuel defs r h
    simp only [compileAdditional] at h
    cases h
    rfl
  · intro fuel defs b r h
    simp only [compileAdditional] at h
    cases h
    rfl
  · intro fuel defs f ih r h
    simp only [compileAdditional, bind, Except.bind] at h
    cases hf : get_definitions_and_schema env fuel f defs with
    | error e => simp only [hf] at h; exact absurd h (by simp)
    | ok a =>
      obtain ⟨d1, δ1, s1⟩ := a
      simp only [hf] at h
      cases h
      exact ih (d1, δ1, s1) hf
  · intro fuel defs fs ih r h
    simp only [compileItems, bind, Except.bind] at h
    cases hl : compileFieldList env fuel fs defs with
    | error e => simp only [hl] at h; exact absurd h (by simp)
    | ok a =>
      obtain ⟨d1, δ1, ss⟩ := a
      simp only [hl] at h
      cases h
      exact ih (d1, δ1, ss) hl
  · intro fuel defs f1 ih r h
    simp only [compileItems] at h
    exact ih r h

/-- C5: for every field node and every accumulated-definitions mapping
supplied to compile, the supplied mapping is left unchanged by the call: the
state of the caller's definitions object after a successful call (the first
component of the embedded result) equals the mapping that was passed in, and
newly discovered definitions come back only in the separate delta component. -/
theorem C5_compile_never_mutates_argument (env : Env) (fuel : Nat) (f : Field)
    (defs dOut δ : SMap) (s : JValue)
    (h : get_definitions_and_schema env fuel f defs = .ok (dOut, δ, s)) : dOut = defs :=
  compile_frame_all env fuel f defs (dOut, δ, s) h

theorem C5_witness :
    get_definitions_and_schema env0 0 (.booleanField common0) [("k", JValue.null)]
      = .ok ([("k", JValue.null)], [], .obj [("type", JValue.str "boolean")])
    ∧ ([("k", JValue.null)] : SMap) = [("k", JValue.null)] :=
  ⟨by simp only [get_definitions_and_schema]; rfl,
   C5_compile_never_mutates_argument env0 0 (.booleanField common0) [("k", JValue.null)]
     [("k", JValue.null)] [] (.obj [("type", JValue.str "boolean")])
     (by simp only [get_definitions_and_schema]; rfl)⟩

/-- C1: for a document-reference field whose resolved document's definition id
is already a key of the accumulated definitions mapping passed to compile
(whose entries are the in-flight reference pointers that document compilation
registers), compile returns an empty new-definitions delta together with a
schema fragment that is purely the reference pointer to that definition id;
it does not recompile the document inline (the equation holds at every fuel,
including zero, under which any document descent would fail). -/
theorem C1_reference_short_circuit (env : Env) (fuel : Nat) (docRef : DocRef)
    (ownerCls : Option Nat) (c : Common) (defs : SMap) (docIdx : Nat)
    (hres : document_cls env docRef ownerCls = .ok docIdx)
    (hinv : PointerInvariant defs)
    (hmem : (lookupKey defs (env.getDoc docIdx).definitionId).isSome = true) :
    get_definitions_and_schema env fuel (.documentField docRef ownerCls c) defs
      = .ok (defs, [], refTo (env.getDoc docIdx).definitionId) := by
  obtain ⟨v, hv⟩ := Option.isSome_iff_exists.mp hmem
  have hval := hinv _ _ hv
  simp only [get_definitions_and_schema, hres]
  rw [if_neg (by simp [isEmpty_false_of_lookup hv])]
  simp only [hv, hval]

theorem C1_witness :
    document_cls envDoc (.cls 0) none = .ok 0
    ∧ (lookupKey [("D", refTo "D")] (envDoc.getDoc 0).definitionId).isSome = true
    ∧ get_definitions_and_schema envDoc 0 (.documentField (.cls 0) none common0)
        [("D", refTo "D")]
      = .ok ([("D", refTo "D")], [], refTo (envDoc.getDoc 0).definitionId) :=
  ⟨rfl, rfl,
   C1_reference_short_circuit envDoc 0 (.cls 0) none common0 [("D", refTo "D")] 0
     rfl (pointerInvariant_single "D") rfl⟩

/-- C3 (counterexample): an object field constructed with the syntactically
invalid pattern key `"["` is constructed without any error (`DictField.__init__`
stores the mapping verbatim), and the regex validation is performed during
compilation, where it raises the format error — contradicting the claim that a
construction error is raised immediately and validation never happens at
compile time. -/
theorem C3_counterexample :
    mkDictField none (some [("[", .booleanField common0)]) none none none common0
      = .dictField none (some [("[", .booleanField common0)]) none none none common0
    ∧ get_definitions_and_schema envBracket 0
        (.dictField none (some [("[", .booleanField common0)]) none none none common0) []
      = .error (.invalidRegex "[") := by
  constructor
  · rfl
  · simp only [get_definitions_and_schema, compileOptionalProps, validatePatternKeys,
      envBracket, bind, Except.bind]
    rfl

/-- C3 (amended as the counterexample forces): pattern-property keys are
validated during compilation, not at construction: `DictField.__init__` stores
the pattern mapping without validation, and every compile call re-validates
each pattern key, surfacing the format error for an invalid key (string-field
patterns, by contrast, are validated at construction). -/
theorem C3_pattern_keys_validated_at_compile (env : Env) (fuel : Nat)
    (properties : Option (List (String × Field))) (patterns : List (String × Field))
    (addProps : Option (Sum Bool Field)) (minP maxP : Option Int) (c : Common)
    (defs d1 δ1 : SMap) (ps1 : Option (List (String × JValue))) (key : String)
    (hprops : compileOptionalProps env fuel properties defs = .ok (d1, δ1, ps1))
    (hkey : validatePatternKeys env patterns = .error (.invalidRegex key)) :
    env.validRegex key = false
    ∧ mkDictField properties (some patterns) addProps minP maxP c
        = .dictField properties (some patterns) addProps minP maxP c
    ∧ get_definitions_and_schema env fuel
        (.dictField properties (some patterns) addProps minP maxP c) defs
      = .error (.invalidRegex key) := by
  refine ⟨validatePatternKeys_invalid hkey, rfl, ?_⟩
  simp only [get_definitions_and_schema, bind, Except.bind, hprops, hkey]

theorem C3_witness :
    compileOptionalProps envBracket 0 none [] = .ok ([], [], none)
    ∧ validatePatternKeys envBracket [("[", .booleanField common0)]
        = .error (.invalidRegex "[")
    ∧ (envBracket.validRegex "[" = false
      ∧ mkDictField none (some [("[", .booleanField common0)]) none none none common0
          = .dictField none (some [("[", .booleanField common0)]) none none none common0
      ∧ get_definitions_and_schema envBracket 0
          (.dictField none (some [("[", .booleanField common0)]) none none none common0) []
        = .error (.invalidRegex "[")) :=
  ⟨by simp only [compileOptionalProps], rfl,
   C3_pattern_keys_validated_at_compile envBracket 0 none [("[", .booleanField common0)]
     none none none common0 [] [] [] none "["
     (by simp only [compileOptionalProps]) rfl⟩

/-- C4 (counterexample): traversing a negation field yields only the field
itself — `NotField` declares no `walk`, inheriting `BaseField.walk` — and in
particular it does not yield the nodes of its single wrapped child: the claim
would require two nodes here (the negation and its leaf child), but the
traversal has exactly one. -/
theorem C4_counterexample :
    walk env0 0 (.notField (.booleanField common0) common0) false []
      = .ok [.notField (.booleanField common0) common0]
    ∧ Except.map List.length
        (walk env0 0 (.notField (.booleanField common0) common0) false []) ≠ .ok 2 := by
  constructor
  · simp only [walk]
  · simp only [walk, Except.map]
    simp

/-- C4 (amended as the counterexample forces): for the one-of/any-of/all-of
combinators, traverse yields the combinator node itself first and then
recursively yields its children's traversals in declared order; a negation
field's traversal, however, yields only the node itself and does not descend
into its single wrapped child. -/
theorem C4_combinator_walk (env : Env) (fuel : Nat) (kind : OfKind)
    (fields : List Field) (c : Common) (thr : Bool) (vis : List Nat)
    (l l1 l2 : List Field) (f1 : Field) (rest : List Field)
    (hof : walkList env fuel fields thr vis = .ok l)
    (hhd : walk env fuel f1 thr vis = .ok l1)
    (htl : walkList env fuel rest thr vis = .ok l2) :
    walk env fuel (.ofField kind fields c) thr vis
      = .ok (.ofField kind fields c :: l)
    ∧ walkList env fuel (f1 :: rest) thr vis = .ok (l1 ++ l2)
    ∧ walk env fuel (.notField f1 c) thr vis = .ok [.notField f1 c] := by
  refine ⟨?_, ?_, ?_⟩
  · simp only [walk, hof, bind, Except.bind]
  · simp only [walkList, hhd, htl, bind, Except.bind]
  · simp only [walk]

theorem C4_witness :
    walkList env0 0 [.booleanField common0] false [] = .ok [.booleanField common0]
    ∧ walk env0 0 (.booleanField common0) false [] = .ok [.booleanField common0]
    ∧ walkList env0 0 [] false [] = .ok []
    ∧ (walk env0 0 (.ofField .oneOf [.booleanField common0] common0) false []
        = .ok [.ofField .oneOf [.booleanField common0] common0, .booleanField common0]
      ∧ walkList env0 0 [.booleanField common0] false []
        = .ok ([.booleanField common0] ++ [])
      ∧ walk env0 0 (.notField (.booleanField common0) common0) false []
        = .ok [.notField (.booleanField common0) common0]) :=
  ⟨by simp only [walkList, walk, bind, Except.bind]; rfl, by simp only [walk],
   by simp only [walkList],
   C4_combinator_walk env0 0 .oneOf [.booleanField common0] common0 false []
     [.booleanField common0] [.booleanField common0] [] (.booleanField common0) []
     (by simp only [walkList, walk, bind, Except.bind]; rfl) (by simp only [walk])
     (by simp only [walkList])⟩

/-- C8 (counterexample): an object field with exactly two declared named
properties and no pattern or additional properties, whose first property is
itself an object with one property, traverses to four nodes, not three. -/
theorem C8_counterexample :
    walk env0 0 outerDictSample false []
      = .ok [outerDictSample, innerDictSample, .booleanField common0,
             .booleanField common0]
    ∧ Except.map List.length (walk env0 0 outerDictSample false []) ≠ .ok 3 := by
  have h1 : walk env0 0 outerDictSample false []
      = .ok [outerDictSample, innerDictSample, .booleanField common0,
             .booleanField common0] := by
    simp only [outerDictSample, innerDictSample, walk, walkOptionalValues,
      walkFieldValues, walkAdditional, bind, Except.bind]
    rfl
  refine ⟨h1, ?_⟩
  rw [h1]
  simp [Except.map]

/-- C8 (amended as the counterexample forces): for an object field with
exactly two declared named properties whose property fields are leaves (their
own traversals yield just themselves) and no pattern-keyed or
additional-properties schema, traverse yields exactly three nodes, in order:
the object field itself, then the two property fields in declaration order
(declaration order as fixed by the ordered properties mapping of the model). -/
theorem C8_dict_walk_two_properties (env : Env) (fuel : Nat) (k1 k2 : String)
    (f1 f2 : Field) (minP maxP : Option Int) (c : Common) (thr : Bool) (vis : List Nat)
    (h1 : walk env fuel f1 thr vis = .ok [f1])
    (h2 : walk env fuel f2 thr vis = .ok [f2]) :
    walk env fuel (.dictField (some [(k1, f1), (k2, f2)]) none none minP maxP c) thr vis
      = .ok [.dictField (some [(k1, f1), (k2, f2)]) none none minP maxP c, f1, f2] := by
  simp only [walk, walkOptionalValues, walkFieldValues, walkAdditional, h1, h2,
    bind, Except.bind]
  rfl

theorem C8_witness :
    walk env0 0 (.booleanField common0) false [] = .ok [.booleanField common0]
    ∧ walk env0 0 (.stringField none none none common0) false []
        = .ok [.stringField none none none common0]
    ∧ walk env0 0
        (.dictField (some [("a", .booleanField common0),
                           ("b", .stringField none none none common0)])
          none none none none common0) false []
      = .ok [.dictField (some [("a", .booleanField common0),
                               ("b", .stringField none none none common0)])
               none none none none common0,
             .booleanField common0, .stringField none none none common0] :=
  ⟨by simp only [walk], by simp only [walk],
   C8_dict_walk_two_properties env0 0 "a" "b" (.booleanField common0)
     (.stringField none none none common0) none none common0 false []
     (by simp only [walk]) (by simp only [walk])⟩

theorem lookupKey_append_none_iff (l1 l2 : SMap) (k : String) :
    lookupKey (l1 ++ l2) k = none
      ↔ (lookupKey l1 k = none ∧ lookupKey l2 k = none) := by
  induction l1 with
  | nil => simp [lookupKey]
  | cons kv rest ih =>
    obtain ⟨k1, v1⟩ := kv
    simp only [List.cons_append, lookupKey]
    split <;> simp_all

theorem stringSchemaFields_no_required (regex : Option String) (mi ma : Option Int)
    (c : Common) : lookupKey (stringSchemaFields regex mi ma c) "required" = none := by
  have hc := common_fields_no_key c "required"
    (by decide) (by decide) (by decide) (by decide)
  unfold stringSchemaFields
  simp only [lookupKey_append_none_iff, and_assoc]
  refine ⟨rfl, hc, ?_, ?_, ?_⟩
  · cases regex with
    | none => rfl
    | some r => by_cases hr : r = "" <;> simp [hr, lookupKey]
  · cases mi <;> simp [lookupKey]
  · cases ma <;> simp [lookupKey]

theorem numberSchemaFields_no_required (nt : String) (mo mi ma : Option Int)
    (emi ema : Bool) (c : Common) :
    lookupKey (numberSchemaFields nt mo mi ma emi ema c) "required" = none := by
  have hc := common_fields_no_key c "required"
    (by decide) (by decide) (by decide) (by decide)
  unfold numberSchemaFields
  simp only [lookupKey_append_none_iff, and_assoc]
  refine ⟨rfl, hc, ?_, ?_, ?_, ?_, ?_⟩
  · cases mo <;> simp [lookupKey]
  · cases mi <;> simp [lookupKey]
  · cases emi <;> simp [lookupKey]
  · cases ma <;> simp [lookupKey]
  · cases ema <;> simp [lookupKey]

theorem arraySchemaFields_no_required (s : JValue) (mi ma : Option Int) (u : Bool)
    (c : Common) (add : Option JValue) :
    lookupKey (arraySchemaFields s mi ma u c add) "required" = none := by
  have hc := common_fields_no_key c "required"
    (by decide) (by decide) (by decide) (by decide)
  unfold arraySchemaFields
  simp only [lookupKey_append_none_iff, and_assoc]
  refine ⟨rfl, hc, ?_, ?_, ?_, ?_⟩
  · cases mi <;> simp [lookupKey]
  · cases ma <;> simp [lookupKey]
  · cases u <;> simp [lookupKey]
  · cases add <;> simp [lookupKey]

theorem dictSchemaFields_no_required (ps pat : Option (List (String × JValue)))
    (add : Option JValue) (minP maxP : Option Int) (c : Common) :
    lookupKey (dictSchemaFields ps pat add minP maxP c) "required" = none := by
  have hc := common_fields_no_key c "required"
    (by decide) (by decide) (by decide) (by decide)
  unfold dictSchemaFields
  simp only [lookupKey_append_none_iff, and_assoc]
  refine ⟨rfl, hc, ?_, ?_, ?_, ?_, ?_⟩
  · cases ps <;> simp [lookupKey]
  · cases pat <;> simp [lookupKey]
  · cases add <;> simp [lookupKey]
  · cases minP <;> simp [lookupKey]
  · cases maxP <;> simp [lookupKey]

theorem compileDocument_fragment (env : Env) (fuel : Nat) (docIdx : Nat)
    (defs dOut δ : SMap) (s : JValue)
    (h : compileDocument env fuel docIdx defs = .ok (dOut, δ, s)) :
    s = refTo (env.getDoc docIdx).definitionId := by
  cases fuel with
  | zero => simp [compileDocument] at h
  | succ fuel1 =>
    simp only [compileDocument, bind, Except.bind] at h
    cases hq : _process_properties env fuel1 (env.getDoc docIdx).fields
        (setKey defs (env.getDoc docIdx).definitionId
          (refTo (env.getDoc docIdx).definitionId)) with
    | error e => simp only [hq] at h; exact absurd h (by simp)
    | ok a =>
      obtain ⟨d1, δ1, ps⟩ := a
      simp only [hq] at h
      cases h
      rfl

/-- C10: the `required` attribute accepted at construction is stored on every
node (it is a component of the base attributes of every field variant) but it
never appears as a keyword in the node's own compiled schema fragment,
regardless of its value; the definitions mappings quantified over are those
arising during compilation (in-flight reference-pointer entries). -/
theorem C10_required_never_in_fragment (env : Env) (fuel : Nat) (f : Field)
    (defs dOut δ : SMap) (s : JValue)
    (hinv : PointerInvariant defs)
    (h : get_definitions_and_schema env fuel f defs = .ok (dOut, δ, s)) :
    topLookup s "required" = none := by
  cases f with
  | stringField regex mi ma c =>
    simp only [get_definitions_and_schema, Except.ok.injEq, Prod.mk.injEq] at h
    obtain ⟨h1, h2, h3⟩ := h
    rw [← h3]
    exact stringSchemaFields_no_required regex mi ma c
  | booleanField c =>
    simp only [get_definitions_and_schema, Except.ok.injEq, Prod.mk.injEq] at h
    obtain ⟨h1, h2, h3⟩ := h
    rw [← h3]
    show lookupKey ([("type", JValue.str "boolean")] ++ _get_common_schema_fields c)
      "required" = none
    rw [lookupKey_append_none_iff]
    exact ⟨rfl, common_fields_no_key c "required"
      (by decide) (by decide) (by decide) (by decide)⟩
  | emailField regex mi ma c =>
    simp only [get_definitions_and_schema, Except.ok.injEq, Prod.mk.injEq] at h
    obtain ⟨h1, h2, h3⟩ := h
    rw [← h3]
    show lookupKey (stringSchemaFields regex mi ma c ++ [("format", JValue.str "email")])
      "required" = none
    rw [lookupKey_append_none_iff]
    exact ⟨stringSchemaFields_no_required regex mi ma c, rfl⟩
  | ipv4Field regex mi ma c =>
    simp only [get_definitions_and_schema, Except.ok.injEq, Prod.mk.injEq] at h
    obtain ⟨h1, h2, h3⟩ := h
    rw [← h3]
    show lookupKey (stringSchemaFields regex mi ma c ++ [("format", JValue.str "ipv4")])
      "required" = none
    rw [lookupKey_append_none_iff]
    exact ⟨stringSchemaFields_no_required regex mi ma c, rfl⟩
  | dateTimeField regex mi ma c =>
    simp only [get_definitions_and_schema, Except.ok.injEq, Prod.mk.injEq] at h
    obtain ⟨h1, h2, h3⟩ := h
    rw [← h3]
    show lookupKey (stringSchemaFields regex mi ma c ++ [("format", JValue.str "date-time")])
      "required" = none
    rw [lookupKey_append_none_iff]
    exact ⟨stringSchemaFields_no_required regex mi ma c, rfl⟩
  | uriField regex mi ma c =>
    simp only [get_definitions_and_schema, Except.ok.injEq, Prod.mk.injEq] at h
    obtain ⟨h1, h2, h3⟩ := h
    rw [← h3]
    show lookupKey (stringSchemaFields regex mi ma c ++ [("format", JValue.str "uri")])
      "required" = none
    rw [lookupKey_append_none_iff]
    exact ⟨stringSchemaFields_no_required regex mi ma c, rfl⟩
  | numberField nt mo mi ma emi ema c =>
    simp only [get_definitions_and_schema, Except.ok.injEq, Prod.mk.injEq] at h
    obtain ⟨h1, h2, h3⟩ := h
    rw [← h3]
    exact numberSchemaFields_no_required nt mo mi ma emi ema c
  | arrayField items mi ma u add c =>
    simp only [get_definitions_and_schema, bind, Except.bind] at h
    cases hi : compileItems env fuel items defs with
    | error e => simp only [hi] at h; exact absurd h (by simp)
    | ok a =>
      obtain ⟨d1, δ1, s1⟩ := a
      simp only [hi] at h
      cases ha : compileAdditional env fuel add d1 with
      | error e => simp only [ha] at h; exact absurd h (by simp)
      | ok b =>
        obtain ⟨d2, δ2, s2⟩ := b
        simp only [ha, Except.ok.injEq, Prod.mk.injEq] at h
        obtain ⟨h1, h2, h3⟩ := h
        rw [← h3]
        exact arraySchemaFields_no_required s1 mi ma u c s2
  | dictField props patProps addProps minP maxP c =>
    simp only [get_definitions_and_schema, bind, Except.bind] at h
    cases hp : compileOptionalProps env fuel props defs with
    | error e => simp only [hp] at h; exact absurd h (by simp)
    | ok a =>
      obtain ⟨d1, δ1, ps1⟩ := a
      simp only [hp] at h
      cases patProps with
      | none =>
        simp only at h
        cases ha : compileAdditional env fuel addProps d1 with
        | error e => simp only [ha] at h; exact absurd h (by simp)
        | ok b =>
          obtain ⟨d3, δ3, s3⟩ := b
          simp only [ha, Except.ok.injEq, Prod.mk.injEq] at h
          obtain ⟨h1, h2, h3⟩ := h
          rw [← h3]
          exact dictSchemaFields_no_required ps1 none s3 minP maxP c
      | some patterns =>
        simp only at h
        cases hv : validatePatternKeys env patterns with
        | error e => simp only [hv] at h; exact absurd h (by simp)
        | ok u =>
          simp only [hv] at h
          cases hq : _process_properties env fuel patterns d1 with
          | error e => simp only [hq] at h; exact absurd h (by simp)
          | ok b =>
            obtain ⟨d2, δ2, ps2⟩ := b
            simp only [hq] at h
            cases ha : compileAdditional env fuel addProps d2 with
            | error e => simp only [ha] at h; exact absurd h (by simp)
            | ok b2 =>
              obtain ⟨d3, δ3, s3⟩ := b2
              simp only [ha, Except.ok.injEq, Prod.mk.injEq] at h
              obtain ⟨h1, h2, h3⟩ := h
              rw [← h3]
              exact dictSchemaFields_no_required ps1 (some ps2) s3 minP maxP c
  | documentField docRef ownerCls c =>
    simp only [get_definitions_and_schema] at h
    cases hres : document_cls env docRef ownerCls with
    | error e => simp only [hres] at h; exact absurd h (by simp)
    | ok docIdx =>
      simp only [hres] at h
      cases hemp : defs.isEmpty with
      | true =>
        rw [if_pos hemp] at h
        rw [compileDocument_fragment env fuel docIdx defs dOut δ s h]
        rfl
      | false =>
        rw [if_neg (by simp [hemp])] at h
        cases hl : lookupKey defs (env.getDoc docIdx).definitionId with
        | some v =>
          simp only [hl, Except.ok.injEq, Prod.mk.injEq] at h
          obtain ⟨h1, h2, h3⟩ := h
          rw [← h3, hinv _ _ hl]
          rfl
        | none =>
          simp only [hl] at h
          rw [compileDocument_fragment env fuel docIdx defs dOut δ s h]
          rfl
  | ofField kind fields c =>
    simp only [get_definitions_and_schema, bind, Except.bind] at h
    cases hl : compileFieldList env fuel fields defs with
    | error e => simp only [hl] at h; exact absurd h (by simp)
    | ok a =>
      obtain ⟨d1, δ1, ss⟩ := a
      simp only [hl, Except.ok.injEq, Prod.mk.injEq] at h
      obtain ⟨h1, h2, h3⟩ := h
      rw [← h3]
      show lookupKey ([(kind.keyword, JValue.arr ss)] ++ _get_common_schema_fields c)
        "required" = none
      rw [lookupKey_append_none_iff]
      refine ⟨?_, common_fields_no_key c "required"
        (by decide) (by decide) (by decide) (by decide)⟩
      cases kind <;> rfl
  | notField field c =>
    simp only [get_definitions_and_schema, bind, Except.bind] at h
    cases hf : get_definitions_and_schema env fuel field defs with
    | error e => simp only [hf] at h; exact absurd h (by simp)
    | ok a =>
      obtain ⟨d1, δ1, s1⟩ := a
      simp only [hf, Except.ok.injEq, Prod.mk.injEq] at h
      obtain ⟨h1, h2, h3⟩ := h
      rw [← h3]
      show lookupKey ([("not", s1)] ++ _get_common_schema_fields c) "required" = none
      rw [lookupKey_append_none_iff]
      exact ⟨rfl, common_fields_no_key c "required"
        (by decide) (by decide) (by decide) (by decide)⟩

theorem C10_witness :
    get_definitions_and_schema env0 0 (.booleanField ⟨true, none, none, none, none⟩) []
      = .ok ([], [], .obj [("type", JValue.str "boolean")])
    ∧ topLookup (.obj [("type", JValue.str "boolean")]) "required" = none :=
  ⟨by simp only [get_definitions_and_schema]; rfl,
   C10_required_never_in_fragment env0 0 (.booleanField ⟨true, none, none, none, none⟩)
     [] [] [] (.obj [("type", JValue.str "boolean")]) pointerInvariant_nil
     (by simp only [get_definitions_and_schema]; rfl)⟩

end JSL
